import Mathlib

/-!
Verification development for `localstack/services/internal.py`: the internal
HTTP resource layer (health endpoint state merge, deprecation wrapper,
listener fall-through, init-script stage resource, default route table).

Python JSON values are embedded as the inductive `Json`; Python dicts are
association lists preserving insertion order (`objSet` updates in place and
appends new keys at the end, as CPython dicts do).
-/

/-- A JSON value as produced by `request.get_json`. Numbers are modelled as
integers (no claim depends on float behaviour). -/
inductive Json where
  | null
  | bool (b : Bool)
  | num (n : Int)
  | str (s : String)
  | arr (elems : List Json)
  | obj (entries : List (String × Json))

mutual

/-- Decidable equality of JSON values (nested induction, written by hand
because deriving does not support the nested lists). -/
def Json.decEq : (a b : Json) → Decidable (a = b)
  | .null, .null => .isTrue rfl
  | .bool x, .bool y =>
      match inferInstanceAs (Decidable (x = y)) with
      | .isTrue h => .isTrue (by rw [h])
      | .isFalse h => .isFalse (by intro hh; injection hh with h1; exact h h1)
  | .num x, .num y =>
      match inferInstanceAs (Decidable (x = y)) with
      | .isTrue h => .isTrue (by rw [h])
      | .isFalse h => .isFalse (by intro hh; injection hh with h1; exact h h1)
  | .str x, .str y =>
      match inferInstanceAs (Decidable (x = y)) with
      | .isTrue h => .isTrue (by rw [h])
      | .isFalse h => .isFalse (by intro hh; injection hh with h1; exact h h1)
  | .arr x, .arr y =>
      match Json.decEqList x y with
      | .isTrue h => .isTrue (by rw [h])
      | .isFalse h => .isFalse (by intro hh; injection hh with h1; exact h h1)
  | .obj x, .obj y =>
      match Json.decEqEntries x y with
      | .isTrue h => .isTrue (by rw [h])
      | .isFalse h => .isFalse (by intro hh; injection hh with h1; exact h h1)
  | .null, .bool _ => .isFalse (fun h => nomatch h)
  | .null, .num _ => .isFalse (fun h => nomatch h)
  | .null, .str _ => .isFalse (fun h => nomatch h)
  | .null, .arr _ => .isFalse (fun h => nomatch h)
  | .null, .obj _ => .isFalse (fun h => nomatch h)
  | .bool _, .null => .isFalse (fun h => nomatch h)
  | .bool _, .num _ => .isFalse (fun h => nomatch h)
  | .bool _, .str _ => .isFalse (fun h => nomatch h)
  | .bool _, .arr _ => .isFalse (fun h => nomatch h)
  | .bool _, .obj _ => .isFalse (fun h => nomatch h)
  | .num _, .null => .isFalse (fun h => nomatch h)
  | .num _, .bool _ => .isFalse (fun h => nomatch h)
  | .num _, .str _ => .isFalse (fun h => nomatch h)
  | .num _, .arr _ => .isFalse (fun h => nomatch h)
  | .num _, .obj _ => .isFalse (fun h => nomatch h)
  | .str _, .null => .isFalse (fun h => nomatch h)
  | .str _, .bool _ => .isFalse (fun h => nomatch h)
  | .str _, .num _ => .isFalse (fun h => nomatch h)
  | .str _, .arr _ => .isFalse (fun h => nomatch h)
  | .str _, .obj _ => .isFalse (fun h => nomatch h)
  | .arr _, .null => .isFalse (fun h => nomatch h)
  | .arr _, .bool _ => .isFalse (fun h => nomatch h)
  | .arr _, .num _ => .isFalse (fun h => nomatch h)
  | .arr _, .str _ => .isFalse (fun h => nomatch h)
  | .arr _, .obj _ => .isFalse (fun h => nomatch h)
  | .obj _, .null => .isFalse (fun h => nomatch h)
  | .obj _, .bool _ => .isFalse (fun h => nomatch h)
  | .obj _, .num _ => .isFalse (fun h => nomatch h)
  | .obj _, .str _ => .isFalse (fun h => nomatch h)
  | .obj _, .arr _ => .isFalse (fun h => nomatch h)

/-- Decidable equality of JSON arrays. -/
def Json.decEqList : (a b : List Json) → Decidable (a = b)
  | [], [] => .isTrue rfl
  | [], _ :: _ => .isFalse (fun h => nomatch h)
  | _ :: _, [] => .isFalse (fun h => nomatch h)
  | x :: xs, y :: ys =>
      match Json.decEq x y, Json.decEqList xs ys with
      | .isTrue h1, .isTrue h2 => .isTrue (by rw [h1, h2])
      | .isFalse h1, _ => .isFalse (by intro hh; injection hh with a b; exact h1 a)
      | _, .isFalse h2 => .isFalse (by intro hh; injection hh with a b; exact h2 b)

/-- Decidable equality of JSON object entry lists. -/
def Json.decEqEntries : (a b : List (String × Json)) → Decidable (a = b)
  | [], [] => .isTrue rfl
  | [], _ :: _ => .isFalse (fun h => nomatch h)
  | _ :: _, [] => .isFalse (fun h => nomatch h)
  | (k1, v1) :: xs, (k2, v2) :: ys =>
      match inferInstanceAs (Decidable (k1 = k2)), Json.decEq v1 v2, Json.decEqEntries xs ys with
      | .isTrue h0, .isTrue h1, .isTrue h2 => .isTrue (by rw [h0, h1, h2])
      | .isFalse h0, _, _ =>
          .isFalse (by intro hh; injection hh with a b; injection a with a1 a2; exact h0 a1)
      | _, .isFalse h1, _ =>
          .isFalse (by intro hh; injection hh with a b; injection a with a1 a2; exact h1 a2)
      | _, _, .isFalse h2 => .isFalse (by intro hh; injection hh with a b; exact h2 b)

end

instance : DecidableEq Json := Json.decEq

/-- A Python dict with JSON values: insertion-ordered association list. -/
abbrev JObj := List (String × Json)

/-- Dict lookup: first entry with the given key. -/
def objGet : JObj → String → Option Json
  | [], _ => none
  | (k', v') :: rest, k => if k' == k then some v' else objGet rest k

/-- Dict assignment `d[k] = v`: updates the existing entry in place, else
appends at the end (CPython dict insertion-order semantics). -/
def objSet : JObj → String → Json → JObj
  | [], k, v => [(k, v)]
  | (k', v') :: rest, k, v =>
      if k' == k then (k, v) :: rest else (k', v') :: objSet rest k v

/-- Python truthiness of a JSON value (`not data` in the handlers). -/
def pyFalsy : Json → Bool
  | .null => true
  | .bool b => !b
  | .num n => n == 0
  | .str s => s == ""
  | .arr elems => elems.isEmpty
  | .obj entries => entries.isEmpty

/-- Python `s.split(delim)` for a one-character delimiter, over the
character list of `s`. -/
def pySplit (delim : Char) : List Char → List String
  | [] => [""]
  | c :: rest =>
      let r := pySplit delim rest
      if c = delim then "" :: r
      else
        match r with
        | s :: t => String.mk (c :: s.data) :: t
        | [] => [String.mk [c]]

/-- Python `k.split(":")` on the character list of `k`. -/
def splitColon : List Char → List String := pySplit ':'

/-- Python `str.upper` for a single ASCII character. -/
def pyCharUpper (c : Char) : Char :=
  if 'a' ≤ c ∧ c ≤ 'z' then Char.ofNat (c.toNat - 32) else c

/-- Python `str.upper` (ASCII model; stage names are ASCII). -/
def pyUpper (s : String) : String := String.mk (s.data.map pyCharUpper)

/-- Python `path.startswith(pre)`. -/
def pyStartswith (s pre : String) : Bool := pre.data.isPrefixOf s.data

/-- The reserved internal route prefix `constants.INTERNAL_RESOURCE_PATH`.
Modelled from the spec: the constants module is not under src/; the source
itself names the prefix in `new_path="/_localstack/health"` and the comment
about legacy support from before `/_localstack` was introduced. -/
def INTERNAL_RESOURCE_PATH : String := "/_localstack"

/-- Modelled from the spec: `constants.VERSION`, the version tag attached to
health snapshots (the constants module is not under src/). The claims do not
depend on its value. -/
def VERSION : String := "version-tag"

/-- Modelled from the spec: `merge_recursive(source, destination, overwrite)`
from `localstack.utils.collections` (not under src/): nested objects are
deep-merged key by key; at leaves the source value overwrites the existing
value when `overwrite` is set, and otherwise the existing value is kept;
the spec describes it as a pure recursive merge that does not mutate the
persistent document ("does not mutate the persistent document"). The helper
`nodeFor` picks the existing nested node (or an empty one) that a source
sub-object is merged into. -/
def nodeFor (dst : JObj) (k : String) : JObj :=
  match objGet dst k with
  | some (Json.obj nm) => nm
  | _ => []

/-- The recursive merge itself; see `nodeFor` above for the full
spec-modelling note. -/
def merge_recursive : JObj → JObj → Bool → JObj
  | [], dst, _ => dst
  | (k, Json.obj sm) :: rest, dst, ow =>
      merge_recursive rest (objSet dst k (Json.obj (merge_recursive sm (nodeFor dst k) ow))) ow
  | (k, v) :: rest, dst, ow =>
      let dst' :=
        match objGet dst k with
        | some _ => if ow then objSet dst k v else dst
        | none => objSet dst k v
      merge_recursive rest dst' ow

/-- A werkzeug-style `Response(body, status)`. -/
structure Response where
  body : String
  status : Nat
deriving DecidableEq, Repr

namespace HealthResource

/-- The test `data.get("action") in ["kill", "restart"]` of `on_post`:
whether the body triggers the shutdown machinery. -/
def postShutdown (m : JObj) : Bool :=
  match objGet m "action" with
  | some (Json.str a) => a == "kill" || a == "restart"
  | _ => false

/-- `HealthResource.on_post`: the request body is `request.get_json(True, True)`
(`none` when the body is missing or invalid JSON). Returns the response and
whether the shutdown machinery (`terminate_all_processes_in_docker` and
`SHUTDOWN_INFRA.set`) was triggered; `data.get` on a truthy non-dict raises. -/
def on_post (body : Option Json) : Except String (Response × Bool) :=
  match body with
  | none => .ok (⟨"invalid request", 400⟩, false)
  | some data =>
      if pyFalsy data then .ok (⟨"invalid request", 400⟩, false)
      else
        match data with
        | .obj m => .ok (⟨"ok", 200⟩, postShutdown m)
        | _ => .error "AttributeError"

/-- `HealthResource.on_get`: builds `result = dict(self.state)` (a copy),
merges `{"services": services}` into it (default `overwrite=False`), then sets
`result["version"]`. The `reload` branch only pings the collaborator
(`service_manager.check_all`); the service states arrive as `services`. -/
def on_get (state : JObj) (services : JObj) : JObj :=
  let result := state
  let result := merge_recursive [("services", Json.obj services)] result false
  objSet result "version" (Json.str VERSION)

/-- One call of `on_get` viewed with its effect on `self.state`: the pair of
the returned document and the post-call persistent state. The handler works
on a copy of `self.state` and `merge_recursive` is pure (spec-modelled), so
the persistent state component passes through. -/
def on_get_call (state : JObj) (services : JObj) : JObj × JObj :=
  (on_get state services, state)

/-- `HealthResource.on_head` returns `Response("ok", 200)` for every request. -/
def on_head (_request : Option Json) : Response := ⟨"ok", 200⟩

/-- `defaultdict(dict)` item access for the descent loop: looking up a missing
key inserts an empty dict. -/
def ddSetdefault (st : JObj) (p : String) : JObj :=
  match objGet st p with
  | some _ => st
  | none => objSet st p (.obj [])

/-- The descent loop `d = state; for p in path[:-1]: d = state[p]` of
`on_put`. The cursor `d` is either the top-level dict (`none`) or the entry
`state[p]` for the segment `p` it was last assigned from — the loop indexes
`state`, not `d`, at every step, so the cursor never descends more than one
level. Returns the updated top-level dict and the final cursor. -/
def putDescend (st : JObj) (ps : List String) : JObj × Option String :=
  ps.foldl (fun acc p => (ddSetdefault acc.1 p, some p)) (st, none)

/-- The final assignment `d[path[-1]] = v` of the `on_put` loop body.
Assigning an item on a non-dict value raises `TypeError`. -/
def putAssign (st : JObj) (d : Option String) (k : String) (v : Json) :
    Except String JObj :=
  match d with
  | none => .ok (objSet st k v)
  | some p =>
      match objGet st p with
      | some (.obj m) => .ok (objSet st p (.obj (objSet m k v)))
      | _ => .error "TypeError"

/-- The whole `state = defaultdict(dict); for k, v in data.items(): ...` loop
of `on_put`, starting from the empty dict. -/
def buildPutState (items : List (String × Json)) : Except String JObj :=
  items.foldlM
    (fun st kv =>
      let path := if kv.1.data.contains ':' then splitColon kv.1.data else [kv.1]
      let desc := putDescend st path.dropLast
      putAssign desc.1 desc.2 (path.getLastD "") kv.2)
    []

/-- `HealthResource.on_put`: `data = request.get_json(True, True) or {}`, the
key-splitting loop, then `self.state = merge_recursive(state, self.state,
overwrite=True)`. Returns the new persistent state and the response value. -/
def on_put (body : Option Json) (state0 : JObj) : Except String (JObj × Json) :=
  let data : Json :=
    match body with
    | none => .obj []
    | some j => if pyFalsy j then .obj [] else j
  match data with
  | .obj items =>
      (buildPutState items).map
        (fun st => (merge_recursive st state0 true, Json.obj [("status", Json.str "OK")]))
  | _ => .error "AttributeError"

end HealthResource

/-- HTTP verbs iterated by `DeprecatedResource.__init__`. -/
inductive Method where
  | options | get | head | post | put | delete | trace | patch
deriving DecidableEq, Repr

/-- Modelled from the spec: `HTTP_METHODS` from
`localstack.utils.server.http2_server` (not under src/), the verb list the
deprecation wrapper iterates. -/
def HTTP_METHODS : List Method :=
  [.options, .get, .head, .post, .put, .delete, .trace, .patch]

/-- Modelled from the spec: `deprecated_endpoint` from
`localstack.deprecations` (not under src/). Per the spec the wrapper
"must preserve the original handler's return value/behavior unchanged; it
must not alter response content, only add the side-effecting notice", so on
values it is the original handler; the deprecation record only shapes the
logged notice. -/
def deprecated_endpoint {H : Type} (fn : H)
    (_previous_path _deprecation_version _new_path : String) : H := fn

/-- One iteration of the `DeprecatedResource.__init__` loop: if the wrapped
resource has a handler for the verb `m`, install its wrapped version
(`setattr`), else leave the partially built resource unchanged. -/
def depStep {H : Type} (resource : Method → Option H)
    (previous_path deprecation_version new_path : String)
    (acc : Method → Option H) (m : Method) : Method → Option H :=
  match resource m with
  | some fn =>
      fun m2 =>
        if m2 = m then
          some (deprecated_endpoint fn previous_path deprecation_version new_path)
        else acc m2
  | none => acc

/-- `DeprecatedResource.__init__`: for each verb in `HTTP_METHODS`, if the
wrapped resource has an `on_<verb>` handler, install the wrapped handler on
the new resource; a resource is its verb-to-handler map, starting empty. -/
def DeprecatedResource {H : Type} (resource : Method → Option H)
    (previous_path deprecation_version new_path : String) : Method → Option H :=
  HTTP_METHODS.foldl
    (depStep resource previous_path deprecation_version new_path)
    (fun _ => none)

/-- Result of `LocalstackResourceHandler.forward_request`: the routed
response, the `return True` fall-through signal, or the `return 404`. -/
inductive FwdResult where
  | handled (r : Response)
  | fallThrough
  | definitive404
deriving DecidableEq, Repr

namespace LocalstackResourceHandler

/-- `LocalstackResourceHandler.forward_request`: `routed` is the outcome of
the inner router (`none` when it raised `NotFound`). On a miss, paths outside
`INTERNAL_RESOURCE_PATH + "/"` fall through to the next listener and paths
inside it get the definitive 404. -/
def forward_request (routed : Option Response) (path : String) : FwdResult :=
  match routed with
  | some r => .handled r
  | none =>
      if !(pyStartswith path (INTERNAL_RESOURCE_PATH ++ "/")) then .fallThrough
      else .definitive404

end LocalstackResourceHandler

/-- Modelled from the spec: the lifecycle stages of the init-script manager
(`localstack.runtime.init.Stage`, not under src/). -/
inductive Stage where
  | BOOT | START | READY | SHUTDOWN
deriving DecidableEq, Repr

/-- The (uppercase) name of a stage, as in the Python enum. -/
def Stage.name : Stage → String
  | .BOOT => "BOOT"
  | .START => "START"
  | .READY => "READY"
  | .SHUTDOWN => "SHUTDOWN"

/-- `Stage[s]`: enum lookup by member name (raises `KeyError` → `none`). -/
def stageFromName (s : String) : Option Stage :=
  if s == "BOOT" then some .BOOT
  else if s == "START" then some .START
  else if s == "READY" then some .READY
  else if s == "SHUTDOWN" then some .SHUTDOWN
  else none

/-- An init script as held by the manager: stage, path, state. -/
structure Script where
  stage : Stage
  path : String
  state : String

/-- Modelled from the spec: the init-script manager collaborator
(`init_script_manager()`, not under src/), "exposing per-stage completion
flags and script metadata". -/
structure InitManager where
  stage_completed : Stage → Option Bool
  scripts : Stage → List Script

/-- `os.path.basename` (POSIX model: the part after the last slash). -/
def basename (p : String) : String := (pySplit '/' p.data).getLastD p


/-- The per-script JSON record built by the stage resource:
`{"stage": ..., "name": ..., "state": ...}`. -/
def scriptRecord (sc : Script) : Json :=
  .obj [("stage", .str sc.stage.name),
        ("name", .str (basename sc.path)),
        ("state", .str sc.state)]

namespace InitScriptsStageResource

/-- `InitScriptsStageResource.on_get`: resolves `Stage[stage.upper()]`; a
`KeyError` becomes `NotFound(f"no such stage {stage}")` (the error string),
otherwise the completion flag and script records for that stage are
returned. -/
def on_get (mgr : InitManager) (stage : String) : Except String Json :=
  match stageFromName (pyUpper stage) with
  | none => .error ("no such stage " ++ stage)
  | some st =>
      .ok (.obj
        [("completed",
            match mgr.stage_completed st with
            | some b => .bool b
            | none => .null),
         ("scripts", .arr ((mgr.scripts st).map scriptRecord))])

end InitScriptsStageResource

/-- The resources registered by `LocalstackResources.add_default_routes`. -/
inductive ResId where
  | legacyHealth | health | plugins | initScripts | initStage | cloudformationUi | diagnose
deriving DecidableEq, Repr

/-- `LocalstackResources.add`: prepends `INTERNAL_RESOURCE_PATH` to the
route path. -/
def addInternal (path : String) : String := INTERNAL_RESOURCE_PATH ++ path

/-- `LocalstackResources.add_default_routes`: the legacy `/health` route is
registered through `super().add` (no prefixing) with the DeprecatedResource
wrapper around the health resource; all other routes go through `self.add`
(prefixed); `/diagnose` is present only when `config.DEBUG` is set. -/
def add_default_routes (debug : Bool) : List (String × ResId) :=
  [("/health", .legacyHealth),
   (addInternal "/health", .health),
   (addInternal "/plugins", .plugins),
   (addInternal "/init", .initScripts),
   (addInternal "/init/<stage>", .initStage),
   (addInternal "/cloudformation/deploy", .cloudformationUi)]
  ++ (if debug then [(addInternal "/diagnose", .diagnose)] else [])

/-- Output of a health handler: a raw `Response` or a JSON document to be
serialized by the dispatcher. -/
inductive HOut where
  | resp (r : Response)
  | json (j : Json)
deriving DecidableEq

/-- The semantics of one health verb handler: request body, live service
states and the current persistent state map to the new persistent state and
an output (or a raised exception). -/
def HealthSem : Type :=
  Option Json → JObj → JObj → Except String (JObj × HOut)

/-- The verb handlers of the single `HealthResource` instance created in
`add_default_routes` (it holds `self.state`, threaded here explicitly). -/
def healthHandlers : Method → Option HealthSem
  | .get => some (fun _ services st => .ok (st, .json (.obj (HealthResource.on_get st services))))
  | .head => some (fun body _ st => .ok (st, .resp (HealthResource.on_head body)))
  | .post => some (fun body _ st => (HealthResource.on_post body).map (fun p => (st, .resp p.1)))
  | .put => some (fun body _ st => (HealthResource.on_put body st).map (fun p => (p.1, .json p.2)))
  | _ => none

/-- The deprecated `/health` alias resource built in `add_default_routes`:
the same health instance, wrapped verb by verb. -/
def legacyHealthResource : Method → Option HealthSem :=
  DeprecatedResource healthHandlers "/health" "1.3.0" "/_localstack/health"

/-- The verb handlers backing each route, restricted to the health state:
only the two health routes touch `HealthResource.state`; the remaining
resources are read-only against other collaborators and are out of scope
here. -/
def backingHealth : ResId → Option (Method → Option HealthSem)
  | .legacyHealth => some legacyHealthResource
  | .health => some healthHandlers
  | _ => none

/-- Route lookup by exact path in the default route table. -/
def routeLookup (debug : Bool) (path : String) : Option ResId :=
  ((add_default_routes debug).find? (fun e => e.1 == path)).map (·.2)

/-- Dispatch of a health request through the default route table: resolve the
path to a resource, the verb to a handler, and run it on the shared
persistent state. -/
def dispatchHealth (path : String) (m : Method) (body : Option Json)
    (services st : JObj) : Option (Except String (JObj × HOut)) := do
  let rid ← routeLookup false path
  let res ← backingHealth rid
  let h ← res m
  pure (h body services st)

/-! ## Helper lemmas -/

theorem objGet_objSet_self (m : JObj) (k : String) (v : Json) :
    objGet (objSet m k v) k = some v := by
  induction m with
  | nil => simp [objSet, objGet]
  | cons hd tl ih =>
      obtain ⟨k', v'⟩ := hd
      by_cases h : k' = k
      · simp [objSet, objGet, h]
      · simp [objSet, objGet, h, ih]

theorem objGet_objSet_ne (m : JObj) (k k' : String) (v : Json) (h : k ≠ k') :
    objGet (objSet m k v) k' = objGet m k' := by
  induction m with
  | nil => simp [objSet, objGet, h]
  | cons hd tl ih =>
      obtain ⟨k0, v0⟩ := hd
      by_cases h0 : k0 = k
      · subst h0
        simp [objSet, objGet, h]
      · by_cases h1 : k0 = k'
        · subst h1
          simp [objSet, objGet, h0]
        · simp [objSet, objGet, h0, h1, ih]

theorem depStep_ne {H : Type} (resource : Method → Option H) (pp dv np : String)
    (acc : Method → Option H) (mi m : Method) (h : m ≠ mi) :
    depStep resource pp dv np acc mi m = acc m := by
  unfold depStep
  cases resource mi <;> simp [h]

theorem foldl_depStep_not_mem {H : Type} (resource : Method → Option H)
    (pp dv np : String) (L : List Method) (acc : Method → Option H) (m : Method)
    (hm : m ∉ L) :
    (L.foldl (depStep resource pp dv np) acc) m = acc m := by
  induction L generalizing acc with
  | nil => rfl
  | cons mi L' ih =>
      simp only [List.foldl]
      rw [ih _ (fun hc => hm (List.mem_cons_of_mem _ hc))]
      exact depStep_ne resource pp dv np acc mi m (fun hc => hm (hc ▸ List.mem_cons_self _ _))

theorem foldl_depStep_mem {H : Type} (resource : Method → Option H)
    (pp dv np : String) (L : List Method) (acc : Method → Option H) (m : Method)
    (hnd : L.Nodup) (hm : m ∈ L) (hacc : acc m = none) :
    (L.foldl (depStep resource pp dv np) acc) m =
      (resource m).map (fun fn => deprecated_endpoint fn pp dv np) := by
  induction L generalizing acc with
  | nil => cases hm
  | cons mi L' ih =>
      simp only [List.foldl]
      by_cases h : m = mi
      · subst h
        have hnotin : m ∉ L' := (List.nodup_cons.mp hnd).1
        rw [foldl_depStep_not_mem resource pp dv np L' _ m hnotin]
        unfold depStep
        cases hr : resource m with
        | none => simp [hacc]
        | some fn => simp
      · have hm' : m ∈ L' := by
          cases hm with
          | head => exact absurd rfl h
          | tail _ hmem => exact hmem
        have hacc' : depStep resource pp dv np acc mi m = none := by
          rw [depStep_ne resource pp dv np acc mi m h]; exact hacc
        exact ih _ (List.nodup_cons.mp hnd).2 hm' hacc'

instance exceptDecEq {ε α : Type} [DecidableEq ε] [DecidableEq α] :
    DecidableEq (Except ε α) := fun x y =>
  match x, y with
  | .ok a, .ok b =>
      if h : a = b then .isTrue (by rw [h])
      else .isFalse (by intro hh; injection hh; contradiction)
  | .error a, .error b =>
      if h : a = b then .isTrue (by rw [h])
      else .isFalse (by intro hh; injection hh; contradiction)
  | .ok _, .error _ => .isFalse (fun h => nomatch h)
  | .error _, .ok _ => .isFalse (fun h => nomatch h)

/-! ## Claims -/

/-- C1 (code bug): for a key with three colon-delimited segments, the claim
says `on_put` stores the value at the nested path `[a][b][c]`. The code's
descent loop reads `state[p]` instead of descending through `d`, so the
update `{"a:b:c": v}` on the empty document actually produces
`{"a": {}, "b": {"c": v}}` — not the nested `{"a": {"b": {"c": v}}}`. This
theorem evaluates the embedded handler at the failing input and shows the
result differs from the nested document the claim (and the source's own
comment about colon keys) describes. -/
theorem c1_on_put_three_segment_key_flattens :
    HealthResource.on_put (some (.obj [("a:b:c", .bool true)])) [] =
      .ok ([("a", Json.obj []), ("b", Json.obj [("c", Json.bool true)])],
           .obj [("status", .str "OK")]) ∧
    ([("a", Json.obj []), ("b", Json.obj [("c", Json.bool true)])] : JObj) ≠
      [("a", Json.obj [("b", Json.obj [("c", Json.bool true)])])] := by
  constructor
  · simp [HealthResource.on_put, HealthResource.buildPutState, HealthResource.putDescend,
          HealthResource.ddSetdefault, HealthResource.putAssign, merge_recursive, nodeFor, objGet,
          objSet, splitColon, pySplit, pyFalsy, Except.map]
  · decide

/-- C2 (confirmed): on a routing miss (`NotFound` from the router),
`forward_request` returns the definitive 404 exactly when the path starts
with the internal resource prefix followed by a slash, and the fall-through
signal (never the 404) otherwise. -/
theorem c2_forward_request_miss_dichotomy (path : String) :
    (LocalstackResourceHandler.forward_request none path =
      if pyStartswith path (INTERNAL_RESOURCE_PATH ++ "/") then .definitive404
      else .fallThrough) ∧
    FwdResult.fallThrough ≠ FwdResult.definitive404 := by
  constructor
  · by_cases h : pyStartswith path (INTERNAL_RESOURCE_PATH ++ "/") = true <;>
      simp [LocalstackResourceHandler.forward_request, h]
  · decide

/-- C3 (confirmed): starting from the empty persistent document, applying
`{"features:initScripts": true}` yields `{"features": {"initScripts": true}}`,
and then applying `{"features:other": false}` merges into the existing
`features` node, yielding
`{"features": {"initScripts": true, "other": false}}`. -/
theorem c3_put_merge_sequence :
    (HealthResource.on_put (some (.obj [("features:initScripts", .bool true)])) [] =
      .ok ([("features", Json.obj [("initScripts", Json.bool true)])],
           .obj [("status", .str "OK")])) ∧
    (HealthResource.on_put (some (.obj [("features:other", .bool false)]))
        [("features", Json.obj [("initScripts", Json.bool true)])] =
      .ok ([("features", Json.obj [("initScripts", Json.bool true), ("other", Json.bool false)])],
           .obj [("status", .str "OK")])) := by
  constructor <;>
    simp [HealthResource.on_put, HealthResource.buildPutState, HealthResource.putDescend,
          HealthResource.ddSetdefault, HealthResource.putAssign, merge_recursive, nodeFor, objGet,
          objSet, splitColon, pySplit, pyFalsy, Except.map]

/-- C4 (confirmed, spec-modelled): `on_get` builds the snapshot on a copy of
`self.state` and the merge is pure, so the call leaves the persistent state
(with all nested sub-objects) unchanged while returning the merged
document. -/
theorem c4_on_get_preserves_state (state services : JObj) :
    (HealthResource.on_get_call state services).2 = state ∧
    (HealthResource.on_get_call state services).1 = HealthResource.on_get state services :=
  ⟨rfl, rfl⟩

/-- C5 counterexample: the body `{}` is present and valid JSON, yet
`on_post` returns the 400 response, refuting "400 iff the JSON body is
missing or invalid". -/
theorem c5_counterexample_empty_object_body :
    HealthResource.on_post (some (.obj [])) = .ok (⟨"invalid request", 400⟩, false) ∧
    (some (Json.obj []) : Option Json) ≠ none :=
  ⟨rfl, by decide⟩

/-- C5 amended: `on_post` returns the 400 response iff the JSON body is
missing, invalid, or parses to a falsy value (`null`, `false`, `0`, `""`,
`[]`, `{}`); every truthy JSON object body gets 200 "ok", with the shutdown
machinery triggered exactly for `action` equal to `"kill"` or `"restart"`
(truthy non-object bodies raise an attribute fault that propagates). -/
theorem c5_amended_post_400_iff_falsy :
    (∀ b : Option Json,
        HealthResource.on_post b = .ok (⟨"invalid request", 400⟩, false) ↔
          (b = none ∨ ∃ j, b = some j ∧ pyFalsy j = true)) ∧
    (∀ m : JObj, pyFalsy (.obj m) = false →
        HealthResource.on_post (some (.obj m)) =
          .ok (⟨"ok", 200⟩, HealthResource.postShutdown m)) ∧
    (∀ m : JObj,
        HealthResource.postShutdown m = true ↔
          objGet m "action" = some (.str "kill") ∨
            objGet m "action" = some (.str "restart")) := by
  refine ⟨?_, ?_, ?_⟩
  · intro b
    cases b with
    | none => simp [HealthResource.on_post]
    | some j =>
        by_cases hf : pyFalsy j = true
        · simp [HealthResource.on_post, hf]
        · cases j <;> simp_all [HealthResource.on_post]
  · intro m hm
    simp [HealthResource.on_post, hm]
  · intro m
    unfold HealthResource.postShutdown
    cases h : objGet m "action" with
    | none => simp
    | some v => cases v <;> simp [Json.str.injEq, or_comm]

/-- C5 witness: the amended theorem applied at the concrete truthy body
`{"action": "kill"}`, discharging the truthiness hypothesis. -/
theorem c5_amended_witness :
    HealthResource.on_post (some (.obj [("action", Json.str "kill")])) =
      .ok (⟨"ok", 200⟩, true) := by
  have h := c5_amended_post_400_iff_falsy.2.1 [("action", Json.str "kill")] (by decide)
  exact h.trans (by decide)

/-- C6 (confirmed, spec-modelled): the wrapped resource exposes exactly the
verb handlers of the input resource — for every verb, the wrapper's handler
is the `deprecated_endpoint`-wrapped original when present, and absent when
the original is absent (no handler is synthesized). -/
theorem c6_deprecated_resource_capability_set {H : Type}
    (resource : Method → Option H) (pp dv np : String) (m : Method) :
    DeprecatedResource resource pp dv np m =
      (resource m).map (fun fn => deprecated_endpoint fn pp dv np) := by
  apply foldl_depStep_mem resource pp dv np HTTP_METHODS (fun _ => none) m
  · decide
  · cases m <;> decide
  · rfl

/-- C7 (confirmed, spec-modelled): `InitScriptsStageResource.on_get` resolves
the stage name case-insensitively (any two spellings with the same uppercase
form succeed with identical results); an unresolvable name yields the
not-found error whose message names the invalid stage, and a resolvable name
yields the stage's completion flag and script records. -/
theorem c7_stage_resolution (mgr : InitManager) (s : String) :
    (stageFromName (pyUpper s) = none →
        InitScriptsStageResource.on_get mgr s = .error ("no such stage " ++ s)) ∧
    (∀ st, stageFromName (pyUpper s) = some st →
        InitScriptsStageResource.on_get mgr s =
          .ok (.obj
            [("completed",
                match mgr.stage_completed st with
                | some b => .bool b
                | none => .null),
             ("scripts", .arr ((mgr.scripts st).map scriptRecord))])) ∧
    (∀ t, pyUpper s = pyUpper t →
        ∀ r, (InitScriptsStageResource.on_get mgr s = .ok r ↔
              InitScriptsStageResource.on_get mgr t = .ok r)) := by
  refine ⟨?_, ?_, ?_⟩
  · intro h
    simp [InitScriptsStageResource.on_get, h]
  · intro st h
    simp [InitScriptsStageResource.on_get, h]
  · intro t hst r
    unfold InitScriptsStageResource.on_get
    rw [hst]
    cases stageFromName (pyUpper t) <;> simp

/-- A concrete init-script manager used to exercise the stage resource. -/
def mgrW : InitManager := ⟨fun _ => some true, fun _ => []⟩

/-- C7 witness: the theorem applied at concrete stage strings — the
mixed-case `"bOOt"` resolves (case-insensitivity discharged with `"Boot"`),
and `"bogus-stage"` produces the not-found message naming it. -/
theorem c7_stage_resolution_witness :
    InitScriptsStageResource.on_get mgrW "bOOt" =
      .ok (.obj [("completed", .bool true), ("scripts", .arr [])]) ∧
    InitScriptsStageResource.on_get mgrW "bogus-stage" =
      .error "no such stage bogus-stage" ∧
    (InitScriptsStageResource.on_get mgrW "bOOt" =
        .ok (.obj [("completed", .bool true), ("scripts", .arr [])]) ↔
      InitScriptsStageResource.on_get mgrW "Boot" =
        .ok (.obj [("completed", .bool true), ("scripts", .arr [])])) := by
  refine ⟨?_, ?_, ?_⟩
  · exact ((c7_stage_resolution mgrW "bOOt").2.1 .BOOT (by decide)).trans (by decide)
  · exact (c7_stage_resolution mgrW "bogus-stage").1 (by decide)
  · exact (c7_stage_resolution mgrW "bOOt").2.2 "Boot" (by decide) _

/-- C9 counterexample: `on_head` returns the body `"ok"`, which is not the
empty body the claim states. -/
theorem c9_counterexample_head_body_nonempty :
    HealthResource.on_head none = { body := "ok", status := 200 } ∧
    ({ body := "ok", status := 200 } : Response).body ≠ "" :=
  ⟨rfl, by decide⟩

/-- C9 amended: for every request, `on_head` returns status 200 with body
`"ok"` (not an empty body). -/
theorem c9_amended_head_ok_200 (request : Option Json) :
    HealthResource.on_head request = { body := "ok", status := 200 } := rfl

/-- Unfolding of `on_get` into the two dict writes it performs on the copy:
the `services` merge entry and the `version` tag. -/
theorem on_get_eq (st sv : JObj) :
    HealthResource.on_get st sv =
      objSet (objSet st "services" (.obj (merge_recursive sv (nodeFor st "services") false)))
        "version" (.str VERSION) := by
  simp only [HealthResource.on_get, merge_recursive]

/-- C8 (confirmed, spec-modelled): every `on_get` snapshot carries the
`version` tag and a `services` key, whatever the persistent state and the
live service states are; and after `PUT {"status": "maintenance"}` on the
empty document, the snapshot contains `"status": "maintenance"` alongside
them. -/
theorem c8_health_snapshot_keys (state services : JObj) :
    objGet (HealthResource.on_get state services) "version" = some (.str VERSION) ∧
    (objGet (HealthResource.on_get state services) "services").isSome = true ∧
    (∃ st1, HealthResource.on_put (some (.obj [("status", .str "maintenance")])) [] =
        .ok (st1, .obj [("status", .str "OK")]) ∧
      objGet (HealthResource.on_get st1 services) "status" = some (.str "maintenance") ∧
      objGet (HealthResource.on_get st1 services) "version" = some (.str VERSION) ∧
      (objGet (HealthResource.on_get st1 services) "services").isSome = true) := by
  refine ⟨?_, ?_, ?_⟩
  · rw [on_get_eq]
    exact objGet_objSet_self _ _ _
  · rw [on_get_eq, objGet_objSet_ne _ _ _ _ (by decide), objGet_objSet_self]
    rfl
  · refine ⟨[("status", Json.str "maintenance")], ?_, ?_, ?_, ?_⟩
    · simp [HealthResource.on_put, HealthResource.buildPutState, HealthResource.putDescend,
            HealthResource.ddSetdefault, HealthResource.putAssign, merge_recursive, nodeFor,
            objGet, objSet, splitColon, pySplit, pyFalsy, Except.map]
    · rw [on_get_eq, objGet_objSet_ne _ _ _ _ (by decide),
          objGet_objSet_ne _ _ _ _ (by decide)]
      rfl
    · rw [on_get_eq]
      exact objGet_objSet_self _ _ _
    · rw [on_get_eq, objGet_objSet_ne _ _ _ _ (by decide), objGet_objSet_self]
      rfl

/-- C10 (confirmed, spec-modelled): the route table binds the legacy
`/health` path to the wrapped resource and the canonical
`/_localstack/health` path to the plain one; both are backed by the same
`HealthResource` handlers (the wrapper preserves every present handler,
including `on_put`), so a PUT through the legacy path is observed by a GET
through the canonical path on the shared persistent state. -/
theorem c10_shared_health_instance (services : JObj) :
    routeLookup false "/health" = some .legacyHealth ∧
    routeLookup false (INTERNAL_RESOURCE_PATH ++ "/health") = some .health ∧
    backingHealth .legacyHealth = some legacyHealthResource ∧
    backingHealth .health = some healthHandlers ∧
    (∀ m, legacyHealthResource m = healthHandlers m) ∧
    (legacyHealthResource .put).isSome = true ∧
    (∃ st1,
      dispatchHealth "/health" .put (some (.obj [("status", .str "maintenance")]))
          services [] =
        some (.ok (st1, .json (.obj [("status", .str "OK")]))) ∧
      dispatchHealth (INTERNAL_RESOURCE_PATH ++ "/health") .get none services st1 =
        some (.ok (st1, .json (.obj (HealthResource.on_get st1 services)))) ∧
      objGet (HealthResource.on_get st1 services) "status" = some (.str "maintenance")) := by
  refine ⟨rfl, rfl, rfl, rfl, ?_, rfl, ?_⟩
  · intro m
    cases m <;> rfl
  · refine ⟨[("status", Json.str "maintenance")], ?_, ?_, ?_⟩
    · have hput : HealthResource.on_put
          (some (.obj [("status", Json.str "maintenance")])) [] =
          .ok ([("status", Json.str "maintenance")], .obj [("status", Json.str "OK")]) := by
        simp [HealthResource.on_put, HealthResource.buildPutState, HealthResource.putDescend,
              HealthResource.ddSetdefault, HealthResource.putAssign, merge_recursive, nodeFor,
              objGet, objSet, splitColon, pySplit, pyFalsy, Except.map]
      have hd : dispatchHealth "/health" .put
          (some (.obj [("status", Json.str "maintenance")])) services [] =
          some ((HealthResource.on_put
              (some (.obj [("status", Json.str "maintenance")])) []).map
            (fun p => (p.1, HOut.json p.2))) := rfl
      rw [hd, hput]
      rfl
    · rfl
    · rw [on_get_eq, objGet_objSet_ne _ _ _ _ (by decide),
          objGet_objSet_ne _ _ _ _ (by decide)]
      rfl
